import Mathlib

/-!
Verification of `normyformy/python_module_compressor.py`.

The file shallowly embeds the module's data model and operations:

* a syntax-tree model (`Exp`, `Stmt`, `PyModule`) covering exactly the node
  distinctions the compressor inspects (`ast.Expr` over a string constant,
  `ast.Assign`/`ast.AnnAssign`, `ast.Import`/`ast.ImportFrom`,
  `ast.FunctionDef`/`ast.AsyncFunctionDef`, `ast.ClassDef`, compound
  statements that carry nested statement lists, and all remaining simple
  statements), with optional `lineno`/`end_lineno` attributes — synthetic
  nodes built by the compressor carry none, matching `ast.Expr(...)`
  constructed without position fields;
* the compressor passes `_remove_module_docstring`, `_filter_imports`,
  `_has_docstring`, `_append_placeholder`, `_count_total_lines`,
  `_compress_function`, `_compress_class`, `_walk_and_compress`,
  `compress_python_module`;
* the ranking side: `FileLoaded`, `determine_importance`,
  `path_to_module_str`, and `FileCompressor.create_file_loaded_objects`.

The stdlib collaborators `ast.parse` and `ast.unparse` are not code of this
repository; they are modelled as parameters (`parse`, `unparse`) where a
claim needs them, and the tree-level transformation composed between them is
embedded exactly.
-/

/-- Model of a Python expression, distinguishing exactly what the compressor
inspects: `ast.Constant` whose value is a `str` (the docstring test), any
other constant, and any other expression. -/
inductive Exp where
  | constStr (s : String)
  | constOther
  | otherExp
deriving DecidableEq, Repr

/-- Model of a Python statement.  `lineno`/`end_lineno` are `Option Nat`
because the compressor reads them through `getattr` with defaults and the
synthetic placeholder node carries neither attribute.  `astImport` and
`astImportFrom` model `ast.Import` and `ast.ImportFrom`; `compound` models
any statement with a nested statement list that the compressor never
rewrites itself (`if`/`while`/`for`/`try`/`with`); `simple` models every
remaining statement without a nested body. -/
inductive Stmt where
  | exprStmt (lineno endLineno : Option Nat) (value : Exp)
  | assign (lineno endLineno : Option Nat)
  | annAssign (lineno endLineno : Option Nat)
  | astImport (lineno endLineno : Option Nat)
  | astImportFrom (lineno endLineno : Option Nat)
  | functionDef (lineno endLineno : Option Nat) (name : String) (isAsync : Bool)
      (body : List Stmt)
  | classDef (lineno endLineno : Option Nat) (name : String) (body : List Stmt)
  | compound (lineno endLineno : Option Nat) (body : List Stmt)
  | simple (lineno endLineno : Option Nat)

/-- Model of `ast.Module`: an ordered statement list. -/
structure PyModule where
  body : List Stmt

/-- `getattr(stmt, "lineno", 1)`. -/
def Stmt.linenoAttr : Stmt → Option Nat
  | .exprStmt l _ _ => l
  | .assign l _ => l
  | .annAssign l _ => l
  | .astImport l _ => l
  | .astImportFrom l _ => l
  | .functionDef l _ _ _ _ => l
  | .classDef l _ _ _ => l
  | .compound l _ _ => l
  | .simple l _ => l

/-- `getattr(stmt, "end_lineno", start)`. -/
def Stmt.endLinenoAttr : Stmt → Option Nat
  | .exprStmt _ e _ => e
  | .assign _ e => e
  | .annAssign _ e => e
  | .astImport _ e => e
  | .astImportFrom _ e => e
  | .functionDef _ e _ _ _ => e
  | .classDef _ e _ _ => e
  | .compound _ e _ => e
  | .simple _ e => e

/-- The docstring shape test used by `_remove_module_docstring` and
`_has_docstring`: `isinstance(stmt, ast.Expr)` whose `value` is an
`ast.Constant` holding a `str`. -/
def isDocstringStmt : Stmt → Bool
  | .exprStmt _ _ (.constStr _) => true
  | _ => false

/-- `isinstance(node, (ast.Import, ast.ImportFrom))`. -/
def isImportStmt : Stmt → Bool
  | .astImport _ _ => true
  | .astImportFrom _ _ => true
  | _ => false

/-- `isinstance(stmt, (ast.Assign, ast.AnnAssign))` — the class-attribute
test of `_compress_class`. -/
def isAttributeStmt : Stmt → Bool
  | .assign _ _ => true
  | .annAssign _ _ => true
  | _ => false

/-- `_remove_module_docstring`: drop `tree.body[0]` when it is a string
constant expression. -/
def _remove_module_docstring (tree : PyModule) : PyModule :=
  match tree.body with
  | [] => tree
  | first_stmt :: rest =>
      if isDocstringStmt first_stmt then ⟨rest⟩ else tree

/-- `_filter_imports`: remove all module-level import statements. -/
def _filter_imports (tree : PyModule) : PyModule :=
  ⟨tree.body.filter (fun node => !isImportStmt node)⟩

/-- `_has_docstring` on a node body: true when the body is nonempty and its
first statement is a string constant expression. -/
def _has_docstring (body : List Stmt) : Bool :=
  match body with
  | [] => false
  | first_stmt :: _ => isDocstringStmt first_stmt

/-- `_count_total_lines`: total line span of the statements, where
`start = getattr(stmt, "lineno", 1)` and `end = getattr(stmt, "end_lineno",
start)`; each statement contributes `end - start + 1`.  Computed in `Int`
exactly as Python integer arithmetic. -/
def _count_total_lines (stmts : List Stmt) : Int :=
  stmts.foldl
    (fun total stmt =>
      let start : Nat := stmt.linenoAttr.getD 1
      let e : Nat := stmt.endLinenoAttr.getD start
      total + ((e : Int) - (start : Int) + 1))
    0

/-- The message put in the placeholder node by `_append_placeholder`. -/
def placeholderMsg (include_line_count : Bool) (original_body : List Stmt) : String :=
  if include_line_count then
    "<Content purposely removed: " ++ toString (_count_total_lines original_body) ++ " lines>"
  else
    "<Content purposely removed>"

/-- `_append_placeholder`: append `ast.Expr(ast.Constant(msg))` (a synthetic
node without position attributes) to `new_body`. -/
def _append_placeholder (new_body : List Stmt) (original_body : List Stmt)
    (include_line_count : Bool) : List Stmt :=
  new_body ++ [Stmt.exprStmt none none (.constStr (placeholderMsg include_line_count original_body))]

/-- `_compress_function` on the function's body: optional docstring
(`original_body[0]`) followed by the placeholder. -/
def _compress_function (keep_docstrings include_line_count : Bool)
    (body : List Stmt) : List Stmt :=
  let new_body : List Stmt :=
    if keep_docstrings && _has_docstring body then body.take 1 else []
  _append_placeholder new_body body include_line_count

/-- `_compress_class` on the class's body: optional docstring, then every
direct `Assign`/`AnnAssign` statement from `original_body[start_idx:]` in
original order (when `keep_class_attributes`), then the placeholder. -/
def _compress_class (keep_docstrings keep_class_attributes include_line_count : Bool)
    (body : List Stmt) : List Stmt :=
  let hasDoc : Bool := keep_docstrings && _has_docstring body
  let docPart : List Stmt := if hasDoc then body.take 1 else []
  let start_idx : Nat := if hasDoc then 1 else 0
  let attrs : List Stmt :=
    if keep_class_attributes then (body.drop start_idx).filter isAttributeStmt else []
  _append_placeholder (docPart ++ attrs) body include_line_count

mutual
/-- `_walk_and_compress` as a structural transform.  `ast.walk` enqueues a
node's children before the loop body mutates the node, so declaration nodes
that the rewrite detaches from the tree are still visited, but mutating them
has no effect on the final tree; the statements a rewrite keeps (a docstring
expression, `Assign`/`AnnAssign` attributes, the placeholder) carry no
nested statement list, so the walk's net effect on the tree is exactly this
recursion: every function/class node still reachable gets its body rebuilt,
and compound statements are traversed without being rewritten themselves. -/
def _walk_and_compress (keep_docstrings keep_class_attributes include_line_count : Bool) :
    Stmt → Stmt
  | .functionDef l e n a body =>
      .functionDef l e n a (_compress_function keep_docstrings include_line_count body)
  | .classDef l e n body =>
      .classDef l e n
        (_compress_class keep_docstrings keep_class_attributes include_line_count body)
  | .compound l e body =>
      .compound l e (walkStmts keep_docstrings keep_class_attributes include_line_count body)
  | s => s

/-- `_walk_and_compress` mapped over a statement list. -/
def walkStmts (keep_docstrings keep_class_attributes include_line_count : Bool) :
    List Stmt → List Stmt
  | [] => []
  | s :: rest =>
      _walk_and_compress keep_docstrings keep_class_attributes include_line_count s ::
        walkStmts keep_docstrings keep_class_attributes include_line_count rest
end

/-- The four boolean options of `compress_python_module`;
`keep_class_attributes` defaults to `true` in the source. -/
structure CompressionConfig where
  keep_docstrings : Bool
  keep_imports : Bool
  include_line_count : Bool
  keep_class_attributes : Bool := true
deriving DecidableEq, Repr

/-- The tree-level transformation performed by `compress_python_module`
between `ast.parse` and `ast.unparse`: import filtering (when
`keep_imports` is false), then module-docstring removal (when
`keep_docstrings` is false), then the walk. -/
def compressTree (cfg : CompressionConfig) (tree : PyModule) : PyModule :=
  let t1 : PyModule := if !cfg.keep_imports then _filter_imports tree else tree
  let t2 : PyModule := if !cfg.keep_docstrings then _remove_module_docstring t1 else t1
  ⟨walkStmts cfg.keep_docstrings cfg.keep_class_attributes cfg.include_line_count t2.body⟩

/-- `compress_python_module`, with the stdlib collaborators `ast.parse` and
`ast.unparse` as parameters (they are not code of this repository).  The
result pairs the returned string with the list of lines the function writes
to standard output: the source executes `print(unparsed)` before
`return unparsed`.  A parse failure propagates unchanged; no other failure
path exists after parsing. -/
def compress_python_module (parse : String → Except String PyModule)
    (unparse : PyModule → String) (python_module : String)
    (cfg : CompressionConfig) : Except String (String × List String) :=
  match parse python_module with
  | .error e => .error e
  | .ok tree =>
      let unparsed : String := unparse (compressTree cfg tree)
      .ok (unparsed, [unparsed])

example :
    compressTree ⟨false, false, true, true⟩
      ⟨[.exprStmt (some 1) (some 1) (.constStr "doc"),
        .astImport (some 2) (some 2),
        .functionDef (some 3) (some 5) "f" false
          [.simple (some 4) (some 4), .simple (some 5) (some 5)]]⟩ =
    ⟨[.functionDef (some 3) (some 5) "f" false
        [.exprStmt none none (.constStr "<Content purposely removed: 2 lines>")]]⟩ := by
  rfl

/-- `path_to_module_str`'s use of `Path.with_suffix("")` on the final path
component: drop the last dot-extension of the name; following `pathlib`, a
dot at position 0 or at the very end does not start a suffix. -/
def stripLastSuffix (s : String) : String :=
  let chars : List Char := s.toList
  let dotPositions : List Nat := (List.range chars.length).filter
      (fun i => chars.getD i ' ' = '.' && decide (0 < i) && decide (i + 1 < chars.length))
  match dotPositions.getLast? with
  | none => s
  | some i => String.mk (chars.take i)

/-- `path_to_module_str`: drop the extension of the final component, drop a
trailing `__init__` component, and join the parts with dots.  A path is
modelled by its ordered list of parts, as `pathlib.Path.parts` presents it. -/
def path_to_module_str (path : List String) : String :=
  let parts : List String :=
    match path.getLast? with
    | none => []
    | some last => path.dropLast ++ [stripLastSuffix last]
  let parts : List String :=
    if parts.getLastD "" = "__init__" then parts.dropLast else parts
  String.intercalate "." parts

/-- The `FileLoaded` dataclass.  `path` is the ordered list of
`pathlib.Path.parts`; `imports` and `imported_in` are the `set[str]` fields. -/
structure FileLoaded where
  (name : String)
  (path : List String)
  (content : String)
  (importance : Int)
  (imports : Finset String)
  (imported_in : Finset String)
deriving DecidableEq

/-- `FileLoaded.depth`: `len(self.path.parts)`. -/
def FileLoaded.depth (f : FileLoaded) : Nat := f.path.length

/-- `FileLoaded.content_length`: `len(self.content)`. -/
def FileLoaded.content_length (f : FileLoaded) : Nat := f.content.length

/-- `FileLoaded.line_count`: `self.content.count("\n") + 1`. -/
def FileLoaded.line_count (f : FileLoaded) : Nat := f.content.toList.count '\n' + 1

/-- `pathlib.Path.name` on a path given by its parts: the final component,
or the empty string for an empty path. -/
def pathName (path : List String) : String := path.getLastD ""

/-- The fixed entry-point file-name set of `determine_importance`. -/
def important_file_names : Finset String := {"main.py", "app.py", "__main__.py", "core.py"}

/-- The inner `calculate_importance_feature` of `determine_importance`,
translated statement by statement. -/
def calculate_importance_feature (file : FileLoaded) : Int :=
  if file.content_length = 0 then 0
  else
    let importance : Int := 10
    let importance : Int :=
      if pathName file.path ∈ important_file_names then importance + 1000 else importance
    let importance : Int := importance + max 0 (60 - (file.depth : Int) * 10)
    let importance : Int := importance + (file.imports.card : Int) * 10
    let importance : Int := importance + (file.imported_in.card : Int) * 5
    let result : Int := importance - ((file.line_count / 50 : Nat) : Int)
    result

/-- `determine_importance`: overwrite each element's `importance` field in
order and return the list. -/
def determine_importance (files_loaded : List FileLoaded) : List FileLoaded :=
  files_loaded.map (fun file => { file with importance := calculate_importance_feature file })

/-- The `grimp.ImportGraph` collaborator, reduced to the two query methods
the ranker calls. -/
structure ImportGraph where
  find_modules_directly_imported_by : String → Finset String
  find_modules_that_directly_import : String → Finset String

/-- The comparison realised by `list.sort(key=lambda f: f.importance,
reverse=True)`: descending by importance, ties keeping list order. -/
def descByImportance (a b : FileLoaded) : Bool := b.importance ≤ a.importance

/-- The loop body of `FileCompressor.create_file_loaded_objects`: one
`FileLoaded` record per `(file_path, content)` item, in dict insertion
order. -/
def build_file_loaded_objects (file_contents : List (List String × String))
    (import_graph : ImportGraph) (base_module : List String) : List FileLoaded :=
  file_contents.map (fun fc =>
    let module_str : String := path_to_module_str (base_module ++ fc.1)
    let imps : Finset String := import_graph.find_modules_directly_imported_by module_str
    let impin : Finset String := import_graph.find_modules_that_directly_import module_str
    { name := module_str, path := fc.1, content := fc.2, importance := -1, imports := imps, imported_in := impin })

/-- `FileCompressor.create_file_loaded_objects`: build the records, score
them, and sort by importance descending.  CPython's `list.sort` with
`reverse=True` is a stable descending sort, modelled by the stable
`List.mergeSort` under the reversed comparison. -/
def create_file_loaded_objects (file_contents : List (List String × String))
    (import_graph : ImportGraph) (base_module : List String) : List FileLoaded :=
  let files_loaded : List FileLoaded :=
    build_file_loaded_objects file_contents import_graph base_module
  let files_loaded : List FileLoaded := determine_importance files_loaded
  files_loaded.mergeSort descByImportance

example : path_to_module_str ["src", "pkg", "__init__.py"] = "src.pkg" := by rfl
example : path_to_module_str ["src", "mod.py"] = "src.mod" := by rfl
example : stripLastSuffix ".bashrc" = ".bashrc" := by rfl
example : stripLastSuffix "a.tar.gz" = "a.tar" := by rfl

/-- A string has length zero exactly when it is empty, connecting
`content_length == 0` with "the content is empty". -/
theorem string_length_eq_zero_iff (s : String) : s.length = 0 ↔ s = "" := by
  constructor
  · intro h
    cases s with
    | mk data =>
      simp [String.length] at h
      simp [h]
  · intro h; simp [h]

/-- The importance formula exactly as claim C2 states it, including its
entry-point set `{main, app, __main__, core}` of extensionless leaf names,
compared against the file's leaf name. -/
def claimed_importance (file : FileLoaded) : Int :=
  if file.content = "" then 0
  else
    10 + (if pathName file.path ∈ ({"main", "app", "__main__", "core"} : Finset String)
            then 1000 else 0)
      + max 0 (60 - 10 * (file.depth : Int))
      + 10 * (file.imports.card : Int)
      + 5 * (file.imported_in.card : Int)
      - ((file.line_count / 50 : Nat) : Int)

/-- A one-part path whose leaf file name is `main.py`, holding one line of
nonempty content and no import edges. -/
def mainPyFile : FileLoaded :=
  { name := "main", path := ["main.py"], content := "x = 1", importance := -1, imports := ∅, imported_in := ∅ }

/-- C2 counterexample: on the record for a file named `main.py` the code
scores 1060 (the entry-point bonus fires, because the code compares the
leaf name against `{"main.py", "app.py", "__main__.py", "core.py"}`), while
the claim's formula, whose entry-point set is `(main, app, __main__,
core)`, yields 60. -/
theorem C2_counterexample :
    calculate_importance_feature mainPyFile = 1060 ∧
    claimed_importance mainPyFile = 60 ∧
    calculate_importance_feature mainPyFile ≠ claimed_importance mainPyFile := by
  refine ⟨by decide, by decide, by decide⟩

/-- The importance formula of claim C2 with the one amendment the
counterexample forces: the entry-point set carries the `.py` extensions, as
the code's `important_file_names` does. -/
def amended_importance (file : FileLoaded) : Int :=
  if file.content = "" then 0
  else
    10 + (if pathName file.path ∈ important_file_names then 1000 else 0)
      + max 0 (60 - 10 * (file.depth : Int))
      + 10 * (file.imports.card : Int)
      + 5 * (file.imported_in.card : Int)
      - ((file.line_count / 50 : Nat) : Int)

/-- C2 (amended): for every `FileLoaded` record the computed importance is
0 when the content is empty, and otherwise 10, plus 1000 when the leaf file
name lies in `{main.py, app.py, __main__.py, core.py}`, plus
`max(0, 60 - 10*depth)`, plus `10*|imports|`, plus `5*|imported_in|`, minus
`floor(line_count / 50)`. -/
theorem C2_importance_formula (file : FileLoaded) :
    calculate_importance_feature file = amended_importance file := by
  unfold calculate_importance_feature amended_importance
  rcases eq_or_ne file.content "" with h | h
  · have h0 : file.content_length = 0 := by
      simp [FileLoaded.content_length, h]
    rw [if_pos h0, if_pos h]
  · have h0 : ¬file.content_length = 0 := by
      simpa [FileLoaded.content_length, string_length_eq_zero_iff] using h
    rw [if_neg h0, if_neg h]
    split_ifs <;> ring_nf

/-- A record for an empty file at `pkg/m.py` with no incoming imports. -/
def emptyContentFile : FileLoaded :=
  { name := "pkg.m", path := ["pkg", "m.py"], content := "", importance := -1, imports := ∅, imported_in := ∅ }

/-- C6 counterexample: for a record with empty content, adding the one
incoming edge `"other"` leaves the importance at 0 instead of increasing it
by 5. -/
theorem C6_counterexample :
    "other" ∉ emptyContentFile.imported_in ∧
    calculate_importance_feature { emptyContentFile with imported_in := {"other"} } =
      calculate_importance_feature emptyContentFile ∧
    calculate_importance_feature { emptyContentFile with imported_in := {"other"} } ≠
      calculate_importance_feature emptyContentFile + 5 := by
  refine ⟨by decide, by decide, by decide⟩

/-- C6 (amended): for every record whose content is nonempty, adding
exactly one element to `imported_in` while keeping every other input fixed
strictly increases the computed importance by exactly 5. -/
theorem C6_imported_in_bonus (f : FileLoaded) (m : String)
    (hc : f.content ≠ "") (hm : m ∉ f.imported_in) :
    calculate_importance_feature { f with imported_in := insert m f.imported_in } =
      calculate_importance_feature f + 5 := by
  have h0 : ¬f.content_length = 0 := by
    simpa [FileLoaded.content_length, string_length_eq_zero_iff] using hc
  unfold calculate_importance_feature
  have hcard : (insert m f.imported_in).card = f.imported_in.card + 1 :=
    Finset.card_insert_of_not_mem hm
  simp only [FileLoaded.content_length, FileLoaded.depth, FileLoaded.line_count, pathName] at *
  rw [if_neg h0, if_neg h0]
  simp only [hcard]
  split_ifs <;> push_cast <;> ring_nf

/-- A nonempty single-line file at `m.py` with no incoming imports. -/
def c6WitnessFile : FileLoaded :=
  { name := "m", path := ["m.py"], content := "x = 1", importance := -1, imports := ∅, imported_in := ∅ }

/-- Witness for `C6_imported_in_bonus` at a concrete record. -/
theorem C6_imported_in_bonus_witness :
    calculate_importance_feature { c6WitnessFile with imported_in := insert "a" c6WitnessFile.imported_in } =
      calculate_importance_feature c6WitnessFile + 5 :=
  C6_imported_in_bonus c6WitnessFile "a" (by decide) (by decide)

/-- C10: `determine_importance` returns a list of the same length and
order, and every element keeps its `name`, `path`, `content`, `imports`
and `imported_in` unchanged; only `importance` is overwritten. -/
theorem C10_determine_importance_frame (files : List FileLoaded) :
    (determine_importance files).length = files.length ∧
    ∀ i : Nat,
      (determine_importance files)[i]?.map FileLoaded.name = files[i]?.map FileLoaded.name ∧
      (determine_importance files)[i]?.map FileLoaded.path = files[i]?.map FileLoaded.path ∧
      (determine_importance files)[i]?.map FileLoaded.content = files[i]?.map FileLoaded.content ∧
      (determine_importance files)[i]?.map FileLoaded.imports = files[i]?.map FileLoaded.imports ∧
      (determine_importance files)[i]?.map FileLoaded.imported_in = files[i]?.map FileLoaded.imported_in ∧
      (determine_importance files)[i]?.map FileLoaded.importance =
        files[i]?.map (fun f => calculate_importance_feature f) := by
  refine ⟨by simp [determine_importance], fun i => ?_⟩
  unfold determine_importance
  rw [List.getElem?_map]
  cases files[i]? <;> simp

/-- A one-statement module standing in for the parse of `"x = 1"`. -/
def trivialTree : PyModule := ⟨[.simple (some 1) (some 1)]⟩

/-- C4 is a code bug: whenever parsing succeeds, `compress_python_module`
writes the compressed text to standard output — the source executes
`print(unparsed)` before returning — so its stdout trace is the nonempty
list `[unparsed]` rather than the empty trace the claim requires. -/
theorem C4_print_side_effect (parse : String → Except String PyModule)
    (unparse : PyModule → String) (src : String) (cfg : CompressionConfig)
    (tree : PyModule) (h : parse src = .ok tree) :
    compress_python_module parse unparse src cfg =
      .ok (unparse (compressTree cfg tree), [unparse (compressTree cfg tree)]) ∧
    [unparse (compressTree cfg tree)] ≠ ([] : List String) := by
  constructor
  · simp [compress_python_module, h]
  · simp

/-- Witness for `C4_print_side_effect` on the parse of `"x = 1"`. -/
theorem C4_print_side_effect_witness :
    compress_python_module (fun _ => .ok trivialTree) (fun _ => "x = 1") "x = 1"
        ⟨false, false, false, true⟩ = .ok ("x = 1", ["x = 1"]) ∧
    (["x = 1"] : List String) ≠ [] :=
  C4_print_side_effect (fun _ => .ok trivialTree) (fun _ => "x = 1") "x = 1"
    ⟨false, false, false, true⟩ trivialTree rfl

/-- C9: `compress_python_module` fails exactly when the parser fails — the
parser's error is returned unchanged, with no local recovery — and on every
successfully parsed input the rest of the pipeline is total, so no parse
error is raised after parsing.  (Parsing itself is `ast.parse`, a stdlib
collaborator, modelled as the `parse` parameter; invalid syntax is by
definition the domain on which it errs.) -/
theorem C9_parse_error_propagation (parse : String → Except String PyModule)
    (unparse : PyModule → String) (src : String) (cfg : CompressionConfig) :
    (∀ e : String, parse src = .error e →
      compress_python_module parse unparse src cfg = .error e) ∧
    (∀ tree : PyModule, parse src = .ok tree →
      (compress_python_module parse unparse src cfg).isOk = true) := by
  constructor
  · intro e h; simp [compress_python_module, h]
  · intro tree h; simp [compress_python_module, h, Except.isOk, Except.toBool]

/-- Witness for `C9_parse_error_propagation`: a failing parse propagates
its error, a succeeding parse yields a successful result. -/
theorem C9_parse_error_propagation_witness :
    compress_python_module (fun _ => .error "invalid syntax") (fun _ => "") "def"
        ⟨true, true, true, true⟩ = .error "invalid syntax" ∧
    (compress_python_module (fun _ => .ok ⟨[]⟩) (fun _ => "") "x = 1"
        ⟨true, true, true, true⟩).isOk = true := by
  constructor
  · exact (C9_parse_error_propagation (fun _ => .error "invalid syntax") (fun _ => "")
      "def" ⟨true, true, true, true⟩).1 "invalid syntax" rfl
  · exact (C9_parse_error_propagation (fun _ => .ok ⟨[]⟩) (fun _ => "")
      "x = 1" ⟨true, true, true, true⟩).2 ⟨[]⟩ rfl

/-- Line span `(endLine - startLine + 1)` of one statement, under the
`getattr` defaults `_count_total_lines` uses. -/
def stmtLineSpan (s : Stmt) : Int :=
  let start : Nat := s.linenoAttr.getD 1
  let e : Nat := s.endLinenoAttr.getD start
  (e : Int) - (start : Int) + 1

/-- The fold of `_count_total_lines` computes the sum of the per-statement
line spans. -/
theorem count_total_lines_eq_sum (stmts : List Stmt) :
    _count_total_lines stmts = (stmts.map stmtLineSpan).sum := by
  have h : ∀ (l : List Stmt) (a : Int),
      List.foldl
        (fun total stmt =>
          let start : Nat := stmt.linenoAttr.getD 1
          let e : Nat := stmt.endLinenoAttr.getD start
          total + ((e : Int) - (start : Int) + 1)) a l =
        a + (l.map stmtLineSpan).sum := by
    intro l
    induction l with
    | nil => intro a; simp
    | cons s rest ih =>
        intro a
        simp only [List.foldl_cons, List.map_cons, List.sum_cons, ih, stmtLineSpan]
        ring
  simpa [_count_total_lines] using h stmts 0

/-- C3: with `keep_class_attributes=true`, `keep_docstrings=false`,
`include_line_count=true`, a compressed class body is exactly its direct
`Assign`/`AnnAssign` statements in original order followed by one
placeholder reporting the sum over the original body statements of
`(endLine - startLine + 1)`; and concretely, a class with attributes on
lines 2 and 3 and a method on lines 4–11 (a 10-line body) compresses to
`[a = 1, b = 2, Placeholder("<Content purposely removed: 10 lines>")]`. -/
theorem C3_class_compression :
    (∀ body : List Stmt,
      _compress_class false true true body =
        body.filter isAttributeStmt ++
          [Stmt.exprStmt none none (.constStr
            ("<Content purposely removed: " ++
              toString ((body.map stmtLineSpan).sum) ++ " lines>"))]) ∧
    compressTree ⟨false, false, true, true⟩
        ⟨[Stmt.classDef (some 1) (some 11) "C"
            [Stmt.assign (some 2) (some 2),
             Stmt.assign (some 3) (some 3),
             Stmt.functionDef (some 4) (some 11) "m" false
               [Stmt.simple (some 5) (some 11)]]]⟩ =
      ⟨[Stmt.classDef (some 1) (some 11) "C"
          [Stmt.assign (some 2) (some 2),
           Stmt.assign (some 3) (some 3),
           Stmt.exprStmt none none
             (.constStr "<Content purposely removed: 10 lines>")]]⟩ := by
  constructor
  · intro body
    simp [_compress_class, _append_placeholder, placeholderMsg,
      count_total_lines_eq_sum]
  · rfl

/-- The descending comparison is transitive. -/
theorem descByImportance_trans (a b c : FileLoaded)
    (hab : descByImportance a b = true) (hbc : descByImportance b c = true) :
    descByImportance a c = true := by
  simp only [descByImportance, decide_eq_true_eq] at *
  omega

/-- The descending comparison is total. -/
theorem descByImportance_total (a b : FileLoaded) :
    (descByImportance a b || descByImportance b a) = true := by
  simp only [descByImportance, Bool.or_eq_true, decide_eq_true_eq]
  omega

/-- C7: the ranking output is sorted by importance in descending order, and
it is stable with no secondary key: for every importance value `v`, the
subsequence of records scoring `v` is exactly the subsequence of the scored
input (whose order is the input order, by `C10`-style preservation) that
scores `v`, in the same order. -/
theorem C7_rank_sorted_stable (file_contents : List (List String × String))
    (import_graph : ImportGraph) (base_module : List String) :
    List.Pairwise (fun a b => b.importance ≤ a.importance)
      (create_file_loaded_objects file_contents import_graph base_module) ∧
    ∀ v : Int,
      (create_file_loaded_objects file_contents import_graph base_module).filter
          (fun f => f.importance = v) =
        (determine_importance
            (build_file_loaded_objects file_contents import_graph base_module)).filter
          (fun f => f.importance = v) := by
  have hresult :
      create_file_loaded_objects file_contents import_graph base_module =
        (determine_importance
          (build_file_loaded_objects file_contents import_graph base_module)).mergeSort
            descByImportance := rfl
  constructor
  · rw [hresult]
    have hs := @List.sorted_mergeSort FileLoaded descByImportance
      descByImportance_trans descByImportance_total
      (determine_importance (build_file_loaded_objects file_contents import_graph base_module))
    exact hs.imp (fun h => by simpa [descByImportance] using h)
  · intro v
    rw [hresult]
    set scored :=
      determine_importance (build_file_loaded_objects file_contents import_graph base_module)
      with hscored
    set p : FileLoaded → Bool := fun f => decide (f.importance = v) with hp
    have hsub : (scored.filter p).Sublist scored := List.filter_sublist scored
    have hpair : List.Pairwise (fun a b => descByImportance a b = true) (scored.filter p) := by
      apply List.pairwise_of_forall_mem_list
      intro a ha b hb
      have ha2 := (List.mem_filter.mp ha).2
      have hb2 := (List.mem_filter.mp hb).2
      simp only [hp, decide_eq_true_eq] at ha2 hb2
      simp [descByImportance, ha2, hb2]
    have hstable : (scored.filter p).Sublist (scored.mergeSort descByImportance) :=
      List.sublist_mergeSort descByImportance_trans descByImportance_total hpair hsub
    have hfiltered : (scored.filter p).Sublist ((scored.mergeSort descByImportance).filter p) := by
      have h1 := List.Sublist.filter p hstable
      rwa [List.filter_eq_self.mpr (fun a ha => (List.mem_filter.mp ha).2)] at h1
    have hperm : ((scored.mergeSort descByImportance).filter p).Perm (scored.filter p) :=
      List.Perm.filter p (List.mergeSort_perm scored descByImportance)
    exact (hfiltered.eq_of_length hperm.length_eq.symm).symm

/-- The walk rewrites declaration bodies but never changes a statement's
own kind: the docstring shape test is unaffected. -/
theorem isDocstringStmt_walk (kd kca ilc : Bool) (s : Stmt) :
    isDocstringStmt (_walk_and_compress kd kca ilc s) = isDocstringStmt s := by
  cases s <;> rfl

/-- The walk never changes a statement's own kind: the import test is
unaffected. -/
theorem isImportStmt_walk (kd kca ilc : Bool) (s : Stmt) :
    isImportStmt (_walk_and_compress kd kca ilc s) = isImportStmt s := by
  cases s <;> rfl

/-- A string-constant expression statement is left untouched by the walk. -/
theorem walk_exprStmt_fixed (kd kca ilc : Bool) (s : Stmt)
    (h : isDocstringStmt s = true) :
    _walk_and_compress kd kca ilc s = s := by
  cases s <;> first
    | rfl
    | simp [isDocstringStmt] at h

/-- `walkStmts` is the elementwise map of `_walk_and_compress`. -/
theorem walkStmts_eq_map (kd kca ilc : Bool) :
    ∀ l : List Stmt, walkStmts kd kca ilc l = l.map (_walk_and_compress kd kca ilc)
  | [] => rfl
  | s :: rest => by
      rw [walkStmts, List.map_cons, walkStmts_eq_map kd kca ilc rest]

/-- An expression statement is never kept as a class attribute. -/
theorem isAttributeStmt_exprStmt (l e : Option Nat) (v : Exp) :
    isAttributeStmt (.exprStmt l e v) = false := rfl

mutual
/-- With `keep_docstrings=false` and `include_line_count=false`, the body
walk is idempotent on a single statement: a compressed function body is
`[placeholder]` again after recompression, and a compressed class body
keeps exactly its kept attributes plus one placeholder. -/
theorem walk_idem (kca : Bool) : ∀ s : Stmt,
    _walk_and_compress false kca false (_walk_and_compress false kca false s) =
      _walk_and_compress false kca false s
  | .exprStmt _ _ _ => rfl
  | .assign _ _ => rfl
  | .annAssign _ _ => rfl
  | .astImport _ _ => rfl
  | .astImportFrom _ _ => rfl
  | .simple _ _ => rfl
  | .functionDef _ _ _ _ body => by
      simp [_walk_and_compress, _compress_function, _append_placeholder, placeholderMsg]
  | .classDef _ _ _ body => by
      cases kca <;>
        simp [_walk_and_compress, _compress_class, _append_placeholder, placeholderMsg,
          List.filter_append, List.filter_filter, isAttributeStmt_exprStmt]
  | .compound l e body => by
      simp only [_walk_and_compress]
      rw [walkStmts_idem kca body]

/-- With `keep_docstrings=false` and `include_line_count=false`, the body
walk is idempotent on a statement list. -/
theorem walkStmts_idem (kca : Bool) : ∀ l : List Stmt,
    walkStmts false kca false (walkStmts false kca false l) = walkStmts false kca false l
  | [] => rfl
  | s :: rest => by
      rw [walkStmts, walkStmts]
      rw [walk_idem kca s, walkStmts_idem kca rest]
end

/-- A statement list begins with two consecutive string-constant expression
statements.  After the leading one is removed as the module docstring, the
second becomes the head and a repeated run of the docstring pass would
remove it as well. -/
def doubleLeadingString : List Stmt → Bool
  | s0 :: s1 :: _ => isDocstringStmt s0 && isDocstringStmt s1
  | _ => false

/-- With `keep_docstrings=false` the tree transformation factors as import
filter, docstring removal, walk. -/
theorem compressTree_false_eq (ki kca ilc : Bool) (t : PyModule) :
    compressTree ⟨false, ki, ilc, kca⟩ t =
      ⟨walkStmts false kca ilc
        (_remove_module_docstring (if ki then t else _filter_imports t)).body⟩ := by
  cases ki <;> rfl

/-- The docstring pass does nothing when the module body does not start
with a string-constant expression. -/
theorem remove_module_docstring_of_head_not_doc (m : PyModule)
    (h : _has_docstring m.body = false) : _remove_module_docstring m = m := by
  rcases m with ⟨body⟩
  cases body with
  | nil => rfl
  | cons s0 rest =>
      have h2 : isDocstringStmt s0 = false := h
      unfold _remove_module_docstring
      simp [h2]

/-- The statements surviving the docstring pass all come from the module
body. -/
theorem remove_module_docstring_subset (m : PyModule) (s : Stmt)
    (h : s ∈ (_remove_module_docstring m).body) : s ∈ m.body := by
  rcases m with ⟨body⟩
  cases body with
  | nil => exact h
  | cons s0 rest =>
      unfold _remove_module_docstring at h
      by_cases h0 : isDocstringStmt s0 = true
      · simp only [h0, if_true] at h
        exact List.mem_cons_of_mem s0 h
      · simp only [h0, if_false] at h
        exact h

/-- After docstring removal and the walk, a module that went through the import filter still contains no module-level import, so a second import
filter is the identity. -/
theorem filter_after_walk_eq (kd kca ilc : Bool) (t : PyModule) :
    _filter_imports
        ⟨walkStmts kd kca ilc (_remove_module_docstring (_filter_imports t)).body⟩ =
      ⟨walkStmts kd kca ilc (_remove_module_docstring (_filter_imports t)).body⟩ := by
  have hbody :
      (walkStmts kd kca ilc (_remove_module_docstring (_filter_imports t)).body).filter
          (fun node => !isImportStmt node) =
        walkStmts kd kca ilc (_remove_module_docstring (_filter_imports t)).body := by
    apply List.filter_eq_self.mpr
    intro a ha
    rw [walkStmts_eq_map] at ha
    rcases List.mem_map.mp ha with ⟨s, hs, rfl⟩
    have hs2 : s ∈ (_filter_imports t).body :=
      remove_module_docstring_subset (_filter_imports t) s hs
    have hs3 : (!isImportStmt s) = true := by
      unfold _filter_imports at hs2
      exact (List.mem_filter.mp hs2).2
    rw [Bool.not_eq_true'] at hs3
    simp [isImportStmt_walk, hs3]
  unfold _filter_imports
  exact congrArg PyModule.mk hbody

/-- Unless the module body starts with two consecutive string-constant
expressions, the module produced by docstring removal plus walk does not
begin with a string-constant expression, so a repeated docstring pass is
the identity. -/
theorem has_docstring_walk_remove (kca ilc : Bool) (u : PyModule)
    (h : doubleLeadingString u.body = false) :
    _has_docstring (walkStmts false kca ilc (_remove_module_docstring u).body) = false := by
  rcases u with ⟨ub⟩
  cases ub with
  | nil => rfl
  | cons s0 rest =>
      by_cases h0 : isDocstringStmt s0 = true
      · have hdb : (_remove_module_docstring ⟨s0 :: rest⟩).body = rest := by
          unfold _remove_module_docstring
          simp [h0]
        rw [hdb]
        cases rest with
        | nil => rfl
        | cons r0 rest2 =>
            have hr0 : isDocstringStmt r0 = false := by
              have h2 : (isDocstringStmt s0 && isDocstringStmt r0) = false := h
              rw [h0] at h2
              simpa using h2
            rw [walkStmts]
            show isDocstringStmt (_walk_and_compress false kca ilc r0) = false
            rw [isDocstringStmt_walk]
            exact hr0
      · have h0f : isDocstringStmt s0 = false := by simpa using h0
        rw [remove_module_docstring_of_head_not_doc ⟨s0 :: rest⟩
          (show _has_docstring ((⟨s0 :: rest⟩ : PyModule)).body = false from h0f)]
        rw [walkStmts]
        show isDocstringStmt (_walk_and_compress false kca ilc s0) = false
        rw [isDocstringStmt_walk]
        exact h0f

/-- C1 (amended): with `include_line_count=false` and
`keep_docstrings=false`, compressing twice equals compressing once,
provided the import-filtered module body does not start with two
consecutive string-constant expression statements (in that case the second
pass removes the second string as a new leading docstring). -/
theorem C1_idempotence_amended (ki kca : Bool) (t : PyModule)
    (h : doubleLeadingString (if ki then t else _filter_imports t).body = false) :
    compressTree ⟨false, ki, false, kca⟩ (compressTree ⟨false, ki, false, kca⟩ t) =
      compressTree ⟨false, ki, false, kca⟩ t := by
  cases ki with
  | true =>
      rw [compressTree_false_eq, compressTree_false_eq]
      show (⟨walkStmts false kca false
          (_remove_module_docstring
            ⟨walkStmts false kca false (_remove_module_docstring t).body⟩).body⟩ : PyModule) =
        ⟨walkStmts false kca false (_remove_module_docstring t).body⟩
      rw [remove_module_docstring_of_head_not_doc _
        (has_docstring_walk_remove kca false t h)]
      exact congrArg PyModule.mk (walkStmts_idem kca _)
  | false =>
      rw [compressTree_false_eq, compressTree_false_eq]
      show (⟨walkStmts false kca false
          (_remove_module_docstring (_filter_imports
            ⟨walkStmts false kca false
              (_remove_module_docstring (_filter_imports t)).body⟩)).body⟩ : PyModule) =
        ⟨walkStmts false kca false (_remove_module_docstring (_filter_imports t)).body⟩
      rw [filter_after_walk_eq]
      rw [remove_module_docstring_of_head_not_doc _
        (has_docstring_walk_remove kca false (_filter_imports t) h)]
      exact congrArg PyModule.mk (walkStmts_idem kca _)

/-- Length of the body of a leading function definition, used to separate
the two sides of the C1 counterexample. -/
def firstDefBodyLength (m : PyModule) : Nat :=
  match m.body with
  | Stmt.functionDef _ _ _ _ b :: _ => b.length
  | _ => 0

/-- A module holding one docstring-less one-statement function, standing in
for the parse of `"def f():\n    pass"`. -/
def idemCexTree : PyModule :=
  ⟨[Stmt.functionDef (some 1) (some 2) "f" false [Stmt.simple (some 2) (some 2)]]⟩

/-- The configuration `keep_docstrings=true`, `keep_imports=true`,
`include_line_count=false`, `keep_class_attributes=true`. -/
def idemCexCfg : CompressionConfig := ⟨true, true, false, true⟩

/-- C1 counterexample: with `include_line_count=false` but
`keep_docstrings=true`, a docstring-less function compresses to the body
`[placeholder]`, and the second pass mistakes that placeholder for a
docstring and keeps it before appending a fresh placeholder, so compressing
twice differs from compressing once. -/
theorem C1_counterexample :
    compressTree idemCexCfg idemCexTree =
      ⟨[Stmt.functionDef (some 1) (some 2) "f" false
          [Stmt.exprStmt none none (.constStr "<Content purposely removed>")]]⟩ ∧
    compressTree idemCexCfg (compressTree idemCexCfg idemCexTree) =
      ⟨[Stmt.functionDef (some 1) (some 2) "f" false
          [Stmt.exprStmt none none (.constStr "<Content purposely removed>"),
           Stmt.exprStmt none none (.constStr "<Content purposely removed>")]]⟩ ∧
    compressTree idemCexCfg (compressTree idemCexCfg idemCexTree) ≠
      compressTree idemCexCfg idemCexTree := by
  refine ⟨rfl, rfl, ?_⟩
  intro hEq
  have h2 : firstDefBodyLength
      (compressTree idemCexCfg (compressTree idemCexCfg idemCexTree)) = 2 := rfl
  have h1 : firstDefBodyLength (compressTree idemCexCfg idemCexTree) = 1 := rfl
  rw [hEq, h1] at h2
  exact absurd h2 (by decide)

/-- A module with a leading docstring followed by a docstring-less
function, exercising the amended idempotence theorem nontrivially. -/
def c1WitnessTree : PyModule :=
  ⟨[Stmt.exprStmt (some 1) (some 1) (.constStr "module docstring"),
    Stmt.functionDef (some 2) (some 3) "f" false [Stmt.simple (some 3) (some 3)]]⟩

/-- Witness for `C1_idempotence_amended` at a concrete module. -/
theorem C1_idempotence_amended_witness :
    doubleLeadingString (if true then c1WitnessTree else _filter_imports c1WitnessTree).body =
      false ∧
    compressTree ⟨false, true, false, true⟩
        (compressTree ⟨false, true, false, true⟩ c1WitnessTree) =
      compressTree ⟨false, true, false, true⟩ c1WitnessTree :=
  ⟨rfl, C1_idempotence_amended true true c1WitnessTree rfl⟩

/-- A module whose first statement is an import, followed by a string
expression and one further statement. -/
def c5Tree : PyModule :=
  ⟨[Stmt.astImport (some 1) (some 1),
    Stmt.exprStmt (some 2) (some 2) (.constStr "not the module docstring"),
    Stmt.simple (some 3) (some 3)]⟩

/-- The configuration `keep_docstrings=false`, `keep_imports=false`,
`include_line_count=false`, `keep_class_attributes=true`. -/
def c5Cfg : CompressionConfig := ⟨false, false, false, true⟩

/-- C5 counterexample: with `keep_imports=false`, the import filter runs
before the docstring pass, so the string expression on line 2 — not the
original module's first statement, and not a module docstring — becomes the
head of the filtered body and the docstring pass removes it. -/
theorem C5_counterexample :
    isDocstringStmt (Stmt.astImport (some 1) (some 1)) = false ∧
    _filter_imports c5Tree =
      ⟨[Stmt.exprStmt (some 2) (some 2) (.constStr "not the module docstring"),
        Stmt.simple (some 3) (some 3)]⟩ ∧
    _remove_module_docstring (_filter_imports c5Tree) = ⟨[Stmt.simple (some 3) (some 3)]⟩ ∧
    compressTree c5Cfg c5Tree = ⟨[Stmt.simple (some 3) (some 3)]⟩ ∧
    Stmt.exprStmt (some 2) (some 2) (.constStr "not the module docstring") ∈ c5Tree.body ∧
    Stmt.exprStmt (some 2) (some 2) (.constStr "not the module docstring") ∉
      (compressTree c5Cfg c5Tree).body := by
  refine ⟨rfl, rfl, rfl, rfl, ?_, ?_⟩
  · simp [c5Tree]
  · intro h
    have h2 : (compressTree c5Cfg c5Tree).body = [Stmt.simple (some 3) (some 3)] := rfl
    rw [h2] at h
    simp at h

/-- The docstring pass removes exactly the head of its input body when
that head is a string-constant expression. -/
theorem remove_module_docstring_of_head_doc (m : PyModule) (s0 : Stmt)
    (rest : List Stmt) (hb : m.body = s0 :: rest)
    (h0 : isDocstringStmt s0 = true) :
    (_remove_module_docstring m).body = rest := by
  rcases m with ⟨body⟩
  have hb2 : body = s0 :: rest := hb
  subst hb2
  unfold _remove_module_docstring
  simp [h0]

/-- C5 (amended): with `keep_docstrings=false`, for every module the
docstring pass removes the leading string-constant statement of the
import-filtered module body when one is present — the output is exactly the
walk of the remaining statements (the removed head is the original module's
docstring when `keep_imports=true`) — and every string-constant expression
that is not the head of the import-filtered body survives into the
output. -/
theorem C5_docstring_pass_amended (ki kca ilc : Bool) (t : PyModule) :
    (∀ (s0 : Stmt) (rest : List Stmt),
      ((if ki then t else _filter_imports t)).body = s0 :: rest →
      isDocstringStmt s0 = true →
      (compressTree ⟨false, ki, ilc, kca⟩ t).body = walkStmts false kca ilc rest) ∧
    (∀ s : Stmt, isDocstringStmt s = true →
      s ∈ ((if ki then t else _filter_imports t)).body.tail →
      s ∈ (compressTree ⟨false, ki, ilc, kca⟩ t).body) := by
  constructor
  · intro s0 rest hub h0
    rw [compressTree_false_eq]
    show walkStmts false kca ilc
        (_remove_module_docstring (if ki then t else _filter_imports t)).body =
      walkStmts false kca ilc rest
    exact congrArg (walkStmts false kca ilc)
      (remove_module_docstring_of_head_doc _ s0 rest hub h0)
  · intro s hs hmem
    rw [compressTree_false_eq]
    rw [walkStmts_eq_map]
    have hsurvive : s ∈ (_remove_module_docstring (if ki then t else _filter_imports t)).body := by
      rcases hub : (if ki then t else _filter_imports t).body with _ | ⟨s0, rest⟩
      · rw [hub] at hmem
        exact absurd hmem (by simp)
      · rw [hub] at hmem
        simp only [List.tail_cons] at hmem
        unfold _remove_module_docstring
        rw [hub]
        show s ∈ (if isDocstringStmt s0 = true then (⟨rest⟩ : PyModule)
          else if ki = true then t else _filter_imports t).body
        by_cases h0 : isDocstringStmt s0 = true
        · rw [if_pos h0]
          exact hmem
        · rw [if_neg h0, hub]
          exact List.mem_cons_of_mem s0 hmem
    have hfix : _walk_and_compress false kca ilc s = s := walk_exprStmt_fixed false kca ilc s hs
    rw [← hfix]
    exact List.mem_map_of_mem (_walk_and_compress false kca ilc) hsurvive

/-- A module with a leading docstring followed by a second string
expression. -/
def c5WitnessTree : PyModule :=
  ⟨[Stmt.exprStmt (some 1) (some 1) (.constStr "doc"),
    Stmt.exprStmt (some 2) (some 2) (.constStr "second string")]⟩

/-- Witness for `C5_docstring_pass_amended`: the leading docstring is
removed — the output is exactly the walk of the remaining statements — and
the second-position string survives compression. -/
theorem C5_docstring_pass_amended_witness :
    (compressTree ⟨false, true, false, true⟩ c5WitnessTree).body =
      walkStmts false true false
        [Stmt.exprStmt (some 2) (some 2) (.constStr "second string")] ∧
    Stmt.exprStmt (some 2) (some 2) (.constStr "second string") ∈
      (compressTree ⟨false, true, false, true⟩ c5WitnessTree).body := by
  constructor
  · exact (C5_docstring_pass_amended true true false c5WitnessTree).1
      (Stmt.exprStmt (some 1) (some 1) (.constStr "doc"))
      [Stmt.exprStmt (some 2) (some 2) (.constStr "second string")] rfl rfl
  · exact (C5_docstring_pass_amended true true false c5WitnessTree).2
      (Stmt.exprStmt (some 2) (some 2) (.constStr "second string")) rfl
      (by simp [c5WitnessTree])

/-- A string that one of the two placeholder message forms can produce. -/
def IsPlaceholderText (s : String) : Prop :=
  s = "<Content purposely removed>" ∨
    ∃ n : Int, s = "<Content purposely removed: " ++ toString n ++ " lines>"

/-- A statement shaped like the synthetic placeholder: a string-constant
expression whose text is a placeholder message. -/
def IsPlaceholderStmt (s : Stmt) : Prop :=
  ∃ l e str, s = Stmt.exprStmt l e (.constStr str) ∧ IsPlaceholderText str

mutual
/-- A statement (tree) contains no string constant carrying placeholder
text; this is how an input that predates compression is recognised, so
that the synthetic placeholders are exactly the placeholder-shaped
statements of the output. -/
def CleanStmt : Stmt → Prop
  | .exprStmt _ _ v =>
      match v with
      | .constStr str => ¬IsPlaceholderText str
      | _ => True
  | .functionDef _ _ _ _ body => CleanStmts body
  | .classDef _ _ _ body => CleanStmts body
  | .compound _ _ body => CleanStmts body
  | .assign _ _ => True
  | .annAssign _ _ => True
  | .astImport _ _ => True
  | .astImportFrom _ _ => True
  | .simple _ _ => True

/-- `CleanStmt` over a statement list. -/
def CleanStmts : List Stmt → Prop
  | [] => True
  | s :: rest => CleanStmt s ∧ CleanStmts rest
end

mutual
/-- Every function/class body inside the statement ends with exactly one
placeholder and has at most one docstring-shaped statement before it. -/
def DefBodiesOk : Stmt → Prop
  | .functionDef _ _ _ _ body => CompressedBodyOk body ∧ DefBodiesOkList body
  | .classDef _ _ _ body => CompressedBodyOk body ∧ DefBodiesOkList body
  | .compound _ _ body => DefBodiesOkList body
  | _ => True

/-- `DefBodiesOk` over a statement list. -/
def DefBodiesOkList : List Stmt → Prop
  | [] => True
  | s :: rest => DefBodiesOk s ∧ DefBodiesOkList rest

/-- The shape of a compressed declaration body: some front statements, none
of them placeholder-shaped and at most one of them docstring-shaped, closed
by exactly one placeholder. -/
def CompressedBodyOk (body : List Stmt) : Prop :=
  ∃ front last, body = front ++ [last] ∧ IsPlaceholderStmt last ∧
    (∀ s ∈ front, ¬IsPlaceholderStmt s) ∧
    front.countP (fun s => isDocstringStmt s) ≤ 1
end

/-- Membership characterisation of `CleanStmts`. -/
theorem cleanStmts_iff : ∀ l : List Stmt, CleanStmts l ↔ ∀ s ∈ l, CleanStmt s
  | [] => by simp [CleanStmts]
  | s :: rest => by
      simp [CleanStmts, cleanStmts_iff rest, List.forall_mem_cons]

/-- Membership characterisation of `DefBodiesOkList`. -/
theorem defBodiesOkList_iff : ∀ l : List Stmt, DefBodiesOkList l ↔ ∀ s ∈ l, DefBodiesOk s
  | [] => by simp [DefBodiesOkList]
  | s :: rest => by
      simp [DefBodiesOkList, defBodiesOkList_iff rest, List.forall_mem_cons]

/-- The statement appended by `_append_placeholder` is placeholder-shaped. -/
theorem isPlaceholderStmt_placeholder (ilc : Bool) (body : List Stmt) :
    IsPlaceholderStmt (Stmt.exprStmt none none (.constStr (placeholderMsg ilc body))) := by
  refine ⟨none, none, placeholderMsg ilc body, rfl, ?_⟩
  unfold placeholderMsg IsPlaceholderText
  cases ilc with
  | true => exact Or.inr ⟨_count_total_lines body, by simp⟩
  | false => exact Or.inl (by simp)

/-- A clean statement is not placeholder-shaped. -/
theorem clean_not_placeholder (s : Stmt) (hc : CleanStmt s) : ¬IsPlaceholderStmt s := by
  rintro ⟨l, e, str, rfl, hpt⟩
  have hc2 : ¬IsPlaceholderText str := by simpa [CleanStmt] using hc
  exact hc2 hpt

/-- An `Assign`/`AnnAssign` statement is not placeholder-shaped. -/
theorem attribute_not_placeholder (s : Stmt) (h : isAttributeStmt s = true) :
    ¬IsPlaceholderStmt s := by
  rintro ⟨l, e, str, rfl, _⟩
  simp [isAttributeStmt] at h

/-- An `Assign`/`AnnAssign` statement is not docstring-shaped. -/
theorem attribute_not_docstring (s : Stmt) (h : isAttributeStmt s = true) :
    isDocstringStmt s = false := by
  cases s <;> simp_all [isAttributeStmt, isDocstringStmt]

/-- A docstring-shaped statement carries no declaration body. -/
theorem defBodiesOk_of_docstring (s : Stmt) (h : isDocstringStmt s = true) :
    DefBodiesOk s := by
  cases s with
  | exprStmt l e v => trivial
  | _ => simp [isDocstringStmt] at h

/-- An `Assign`/`AnnAssign` statement carries no declaration body. -/
theorem defBodiesOk_of_attribute (s : Stmt) (h : isAttributeStmt s = true) :
    DefBodiesOk s := by
  cases s with
  | assign l e => trivial
  | annAssign l e => trivial
  | _ => simp [isAttributeStmt] at h

/-- A compressed body made of an acceptable front plus the placeholder
satisfies the shape invariant, and none of its statements carries an
unprocessed declaration body. -/
theorem compressed_parts_ok (ilc : Bool) (origBody front : List Stmt)
    (hfrontClean : ∀ s ∈ front, ¬IsPlaceholderStmt s)
    (hfrontOk : ∀ s ∈ front, DefBodiesOk s)
    (hcount : front.countP (fun s => isDocstringStmt s) ≤ 1) :
    CompressedBodyOk
      (front ++ [Stmt.exprStmt none none (.constStr (placeholderMsg ilc origBody))]) ∧
    DefBodiesOkList
      (front ++ [Stmt.exprStmt none none (.constStr (placeholderMsg ilc origBody))]) := by
  constructor
  · exact ⟨front, _, rfl, isPlaceholderStmt_placeholder ilc origBody, hfrontClean, hcount⟩
  · rw [defBodiesOkList_iff]
    intro s hs
    rcases List.mem_append.mp hs with h1 | h2
    · exact hfrontOk s h1
    · rcases List.mem_singleton.mp h2 with rfl
      trivial

/-- The optional docstring part of a compressed body consists of statements
of the original body that are docstring-shaped. -/
theorem docPart_mem (kd : Bool) (body : List Stmt) :
    ∀ s ∈ (if kd && _has_docstring body then body.take 1 else []),
      s ∈ body ∧ isDocstringStmt s = true := by
  intro s hs
  by_cases hdoc : (kd && _has_docstring body) = true
  · rw [if_pos hdoc] at hs
    have hsb : s ∈ body := List.take_subset 1 body hs
    have hd2 : _has_docstring body = true := ((Bool.and_eq_true _ _).mp hdoc).2
    refine ⟨hsb, ?_⟩
    cases body with
    | nil => simp at hs
    | cons s0 rest =>
        have hss0 : s = s0 := by simpa using hs
        subst hss0
        simpa [_has_docstring] using hd2
  · rw [if_neg hdoc] at hs
    simp at hs

/-- The optional docstring part has at most one docstring-shaped
statement. -/
theorem docPart_countP (kd : Bool) (body : List Stmt) :
    (if kd && _has_docstring body then body.take 1 else []).countP
      (fun s => isDocstringStmt s) ≤ 1 := by
  by_cases hdoc : (kd && _has_docstring body) = true
  · rw [if_pos hdoc]
    calc (body.take 1).countP (fun s => isDocstringStmt s)
        ≤ (body.take 1).length := List.countP_le_length _
      _ ≤ 1 := by simp [List.length_take]
  · rw [if_neg hdoc]
    simp

/-- `_compress_function` establishes the compressed-body invariant. -/
theorem compress_function_ok (kd ilc : Bool) (body : List Stmt) (h : CleanStmts body) :
    CompressedBodyOk (_compress_function kd ilc body) ∧
      DefBodiesOkList (_compress_function kd ilc body) := by
  have hmem := (cleanStmts_iff body).mp h
  have hres : _compress_function kd ilc body =
      (if kd && _has_docstring body then body.take 1 else []) ++
        [Stmt.exprStmt none none (.constStr (placeholderMsg ilc body))] := rfl
  rw [hres]
  apply compressed_parts_ok
  · intro s hs
    exact clean_not_placeholder s (hmem s (docPart_mem kd body s hs).1)
  · intro s hs
    exact defBodiesOk_of_docstring s (docPart_mem kd body s hs).2
  · exact docPart_countP kd body

/-- `_compress_class` establishes the compressed-body invariant. -/
theorem compress_class_ok (kd kca ilc : Bool) (body : List Stmt) (h : CleanStmts body) :
    CompressedBodyOk (_compress_class kd kca ilc body) ∧
      DefBodiesOkList (_compress_class kd kca ilc body) := by
  have hmem := (cleanStmts_iff body).mp h
  have hres : _compress_class kd kca ilc body =
      ((if kd && _has_docstring body then body.take 1 else []) ++
        (if kca then
          (body.drop (if kd && _has_docstring body then 1 else 0)).filter isAttributeStmt
        else [])) ++
        [Stmt.exprStmt none none (.constStr (placeholderMsg ilc body))] := rfl
  rw [hres]
  have hattr : ∀ s ∈ (if kca then
      (body.drop (if kd && _has_docstring body then 1 else 0)).filter isAttributeStmt
      else []), isAttributeStmt s = true := by
    intro s hs
    by_cases hkca : kca = true
    · rw [if_pos hkca] at hs
      exact (List.mem_filter.mp hs).2
    · rw [if_neg hkca] at hs
      simp at hs
  apply compressed_parts_ok
  · intro s hs
    rcases List.mem_append.mp hs with h1 | h2
    · exact clean_not_placeholder s (hmem s (docPart_mem kd body s h1).1)
    · exact attribute_not_placeholder s (hattr s h2)
  · intro s hs
    rcases List.mem_append.mp hs with h1 | h2
    · exact defBodiesOk_of_docstring s (docPart_mem kd body s h1).2
    · exact defBodiesOk_of_attribute s (hattr s h2)
  · rw [List.countP_append]
    have h2 : List.countP (fun s => isDocstringStmt s) (if kca then
        (body.drop (if kd && _has_docstring body then 1 else 0)).filter isAttributeStmt
        else []) = 0 := by
      rw [List.countP_eq_zero]
      intro s hs
      simp [attribute_not_docstring s (hattr s hs)]
    rw [h2]
    simpa using docPart_countP kd body

mutual
/-- After the walk, every declaration body inside a clean statement
satisfies the compressed-body invariant. -/
theorem walk_defsOk (kd kca ilc : Bool) : ∀ s : Stmt, CleanStmt s →
    DefBodiesOk (_walk_and_compress kd kca ilc s)
  | .exprStmt _ _ _, _ => by trivial
  | .assign _ _, _ => by trivial
  | .annAssign _ _, _ => by trivial
  | .astImport _ _, _ => by trivial
  | .astImportFrom _ _, _ => by trivial
  | .simple _ _, _ => by trivial
  | .functionDef l e n a body, h => by
      show CompressedBodyOk (_compress_function kd ilc body) ∧
        DefBodiesOkList (_compress_function kd ilc body)
      exact compress_function_ok kd ilc body h
  | .classDef l e n body, h => by
      show CompressedBodyOk (_compress_class kd kca ilc body) ∧
        DefBodiesOkList (_compress_class kd kca ilc body)
      exact compress_class_ok kd kca ilc body h
  | .compound l e body, h => by
      show DefBodiesOkList (walkStmts kd kca ilc body)
      exact walkList_defsOk kd kca ilc body h

/-- `walk_defsOk` over a statement list. -/
theorem walkList_defsOk (kd kca ilc : Bool) : ∀ l : List Stmt, CleanStmts l →
    DefBodiesOkList (walkStmts kd kca ilc l)
  | [], _ => by trivial
  | s :: rest, h => by
      have h2 : CleanStmt s ∧ CleanStmts rest := h
      show DefBodiesOk (_walk_and_compress kd kca ilc s) ∧
        DefBodiesOkList (walkStmts kd kca ilc rest)
      exact ⟨walk_defsOk kd kca ilc s h2.1, walkList_defsOk kd kca ilc rest h2.2⟩
end

/-- The walk never turns a non-placeholder statement into a
placeholder-shaped one. -/
theorem walk_not_placeholder (kd kca ilc : Bool) (s : Stmt)
    (h : ¬IsPlaceholderStmt s) :
    ¬IsPlaceholderStmt (_walk_and_compress kd kca ilc s) := by
  cases s with
  | exprStmt l e v => exact h
  | assign l e => exact h
  | annAssign l e => exact h
  | astImport l e => exact h
  | astImportFrom l e => exact h
  | simple l e => exact h
  | functionDef l e n a body =>
      rintro ⟨l2, e2, str, heq, _⟩
      exact Stmt.noConfusion heq
  | classDef l e n body =>
      rintro ⟨l2, e2, str, heq, _⟩
      exact Stmt.noConfusion heq
  | compound l e body =>
      rintro ⟨l2, e2, str, heq, _⟩
      exact Stmt.noConfusion heq

/-- C8: for every configuration, on a module that contains no
placeholder-text string constant of its own (so that "Placeholder" is
exactly the placeholder-shaped statements of the output), every class and
function body in the output ends with exactly one placeholder, has no
placeholder and at most one docstring-shaped statement before it, and the
module root body itself contains no placeholder. -/
theorem C8_placeholder_invariants (cfg : CompressionConfig) (t : PyModule)
    (h : CleanStmts t.body) :
    DefBodiesOkList (compressTree cfg t).body ∧
    ∀ s ∈ (compressTree cfg t).body, ¬IsPlaceholderStmt s := by
  rcases cfg with ⟨kd, ki, ilc, kca⟩
  have hb2 : ∃ b2 : List Stmt,
      (compressTree ⟨kd, ki, ilc, kca⟩ t).body = walkStmts kd kca ilc b2 ∧
      ∀ s ∈ b2, s ∈ t.body := by
    cases ki with
    | true =>
        cases kd with
        | true => exact ⟨t.body, rfl, fun s hs => hs⟩
        | false =>
            exact ⟨(_remove_module_docstring t).body, rfl,
              fun s hs => remove_module_docstring_subset t s hs⟩
    | false =>
        cases kd with
        | true =>
            refine ⟨(_filter_imports t).body, rfl, fun s hs => ?_⟩
            unfold _filter_imports at hs
            exact (List.mem_filter.mp hs).1
        | false =>
            refine ⟨(_remove_module_docstring (_filter_imports t)).body, rfl, fun s hs => ?_⟩
            have hs2 := remove_module_docstring_subset (_filter_imports t) s hs
            unfold _filter_imports at hs2
            exact (List.mem_filter.mp hs2).1
  rcases hb2 with ⟨b2, hbody, hsub⟩
  have hclean2 : CleanStmts b2 :=
    (cleanStmts_iff b2).mpr
      (fun s hs => (cleanStmts_iff t.body).mp h s (hsub s hs))
  constructor
  · rw [hbody]
    exact walkList_defsOk kd kca ilc b2 hclean2
  · rw [hbody]
    intro s hs
    rw [walkStmts_eq_map] at hs
    rcases List.mem_map.mp hs with ⟨s0, hs0, rfl⟩
    exact walk_not_placeholder kd kca ilc s0
      (clean_not_placeholder s0 ((cleanStmts_iff t.body).mp h s0 (hsub s0 hs0)))

/-- Every placeholder message is at least 27 characters long. -/
theorem placeholderText_length (s : String) (h : IsPlaceholderText s) :
    27 ≤ s.length := by
  rcases h with h | ⟨n, h⟩
  · rw [h]
    decide
  · rw [h, String.length_append, String.length_append]
    have h1 : ("<Content purposely removed: " : String).length = 28 := by decide
    have h2 : (" lines>" : String).length = 7 := by decide
    omega

/-- A string shorter than 27 characters is not a placeholder message. -/
theorem short_not_placeholderText (s : String) (h : s.length < 27) :
    ¬IsPlaceholderText s :=
  fun hp => absurd (placeholderText_length s hp) (by omega)

/-- A module with a docstring, a function, and a class holding one
attribute and one method. -/
def c8WitnessTree : PyModule :=
  ⟨[Stmt.exprStmt (some 1) (some 1) (.constStr "doc"),
    Stmt.functionDef (some 2) (some 3) "f" false [Stmt.simple (some 3) (some 3)],
    Stmt.classDef (some 4) (some 6) "C"
      [Stmt.assign (some 5) (some 5),
       Stmt.functionDef (some 6) (some 6) "m" false [Stmt.simple (some 6) (some 6)]]]⟩

/-- Witness for `C8_placeholder_invariants` at a concrete module and
configuration. -/
theorem C8_placeholder_invariants_witness :
    DefBodiesOkList (compressTree ⟨true, true, true, true⟩ c8WitnessTree).body :=
  (C8_placeholder_invariants ⟨true, true, true, true⟩ c8WitnessTree
    ⟨short_not_placeholderText "doc" (by decide),
     ⟨trivial, trivial⟩,
     ⟨trivial, ⟨trivial, trivial⟩, trivial⟩,
     trivial⟩).1
